import Mathlib

/-!
Shallow embedding of the retry / effect-classification engine of the
`bitcoin-json-rpc` client (src/utils.ts, src/BitcoinJsonRpc.ts,
src/BitcoinJsonRpcError.ts, src/json-rpc.ts), together with theorems
settling the specification claims about it.

JavaScript strings are modelled as Lean `String`; JSON-compatible values
as the inductive `JsonValue` (with `Option JsonValue` where a JS value may
be `undefined`); machine integers do not occur in the modelled code.
The JS regular expressions used by the code are all literal patterns,
anchored with `^`/`$` or unanchored, so they are modelled as
exact / prefix / substring matching on strings.
-/

namespace BitcoinJsonRpcModel

/-- A JSON-compatible JavaScript value. Objects are ordered field lists,
as constructed by the source. -/
inductive JsonValue where
  | null
  | bool (b : Bool)
  | num (n : Int)
  | str (s : String)
  | arr (items : List JsonValue)
  | obj (fields : List (String × JsonValue))
deriving Repr

/-- Lookup of a named property on a JSON value: `undefined` (`none`) on
non-objects and on objects lacking the key; first binding wins. -/
def lookupField : List (String × JsonValue) → String → Option JsonValue
  | [], _ => none
  | (k, v) :: rest, key => if k == key then some v else lookupField rest key

/-- Property access `v[key]` in JS terms: `undefined` unless `v` is an
object carrying the key. -/
def lookupJs : JsonValue → String → Option JsonValue
  | .obj fields, key => lookupField fields key
  | _, _ => none

/-- JS truthiness of a JSON value. -/
def jsTruthy : JsonValue → Bool
  | .null => false
  | .bool b => b
  | .num n => n != 0
  | .str s => s != ""
  | .arr _ => true
  | .obj _ => true

/-- Does the field list carry the key? -/
def objHasKey (fields : List (String × JsonValue)) (key : String) : Bool :=
  fields.any (fun p => p.1 == key)

/-- Shallow `Object.assign(base, extra)` on field lists: every key of
`extra` takes `extra`'s value, keys only in `base` keep `base`'s value. -/
def objAssign (base extra : List (String × JsonValue)) : List (String × JsonValue) :=
  base.filter (fun p => !objHasKey extra p.1) ++ extra

/-! ## String matching (src/utils.ts) -/

/-- `MAX_ERROR_MESSAGE_LENGTH` from src/utils.ts line 6. -/
def MAX_ERROR_MESSAGE_LENGTH : Nat := 150

/-- `maybeShortenErrorMessage` from src/utils.ts line 10:
`value.substr(0, MAX_ERROR_MESSAGE_LENGTH)`. -/
def maybeShortenErrorMessage (value : String) : String :=
  ⟨value.data.take MAX_ERROR_MESSAGE_LENGTH⟩

/-- The regular expressions in src/utils.ts are literal: anchored on both
sides (`^lit$`), anchored at the start (`^lit`), or unanchored (`lit`). -/
inductive MsgPattern where
  | exact (lit : String)
  | starts (lit : String)
  | contains (lit : String)
deriving Repr

/-- `message.match(pattern) !== null` for the three literal pattern forms. -/
def matchesMsg : MsgPattern → String → Bool
  | .exact lit, s => lit == s
  | .starts lit, s => lit.data.isPrefixOf s.data
  | .contains lit, s => decide (lit.data <:+: s.data)

/-- `PURE_METHODS` from src/utils.ts lines 80-98. -/
def PURE_METHODS : List String :=
  [ "getinfo"
  , "getblockchaininfo"
  , "getrawtransaction"
  , "getblockhash"
  , "getrawmempool"
  , "validateaddress"
  , "getbalance"
  , "omni_getwalletaddressbalances"
  , "omni_gettransaction"
  , "omni_listpendingtransactions"
  , "z_getoperationresult"
  , "z_getbalance"
  , "z_validateaddress"
  , "z_listunspent"
  , "listunspent"
  , "dumpprivkey"
  , "gettransaction"
  ]

/-- The ordered `notExecutedErrorMessages` table from src/utils.ts
lines 101-122, one entry per regex literal, in source order. -/
def notExecutedErrorMessages : List MsgPattern :=
  [ .exact "Work queue depth exceeded"
  , .starts "Loading block index"
  , .starts "Rewinding blocks"
  , .starts "Error creating transaction"
  , .starts "Loading P2P addresses"
  , .exact "Insufficient funds"
  , .starts "Error with selected inputs"
  , .starts "Sender has insufficient balance"
  , .starts "Insufficient funds"
  , .exact "ECONNREFUSED"
  , .starts "Verifying blocks"
  , .starts "Loading wallet"
  , .contains "fees may not be sufficient"
  , .contains "Error choosing inputs for the send transaction"
  , .contains "Rewinding blocks"
  , .contains "Invalid amount"
  , .starts "Activating best chain"
  , .starts "Parsing Omni Layer transactions"
  , .starts "Upgrading"
  , .starts "Error committing transaction"
  ]

/-- `getWasExecutedFromError` from src/utils.ts lines 100-129: only the
failure message is inspected; a match yields `false` (NotExecuted), no
match yields `null` (Unknown), modelled as `Option Bool`. -/
def getWasExecutedFromError (method : String) (message : String) : Option Bool :=
  let _ := method
  if notExecutedErrorMessages.any (fun p => matchesMsg p message) then
    some false
  else
    none

/-- `getShouldRetry` from src/utils.ts lines 132-155. -/
def getShouldRetry (method : String) (message : String) : Bool :=
  if matchesMsg (.exact "Insufficient funds") message then
    false
  else if method == "gettransaction" &&
      matchesMsg (.contains "Invalid or non-wallet transaction id") message then
    false
  else if matchesMsg (.starts "omni_") method &&
      matchesMsg (.contains "Error creating transaction") message then
    false
  else if matchesMsg (.starts "omni_") method &&
      matchesMsg (.contains "Error choosing inputs") message then
    false
  else if method == "getrawtransaction" &&
      matchesMsg (.contains "No such mempool") message then
    false
  else
    true

/-! ## Typed error assembly (src/BitcoinJsonRpcError.ts) -/

/-- A normalized inner failure as thrown by the transport/protocol layer:
`Error` objects carry a `message` and an optional diagnostic `data`
object (modelled as a field list, `[]` for absent). -/
structure RpcError where
  message : String
  data : List (String × JsonValue)
deriving Repr

/-- The executed verdict as it is embedded into JSON diagnostic data:
`null` for Unknown, a boolean otherwise. -/
def executedToJson : Option Bool → JsonValue
  | none => .null
  | some b => .bool b

/-- `BitcoinJsonRpcError` from src/BitcoinJsonRpcError.ts: message copied
from the inner error, the `executed` verdict, and a `data` bundle built by
`Object.assign({}, inner.data, \x7b bitcoinJsonRpc: \x7b executed \x7d \x7d, data)`. -/
structure BitcoinJsonRpcError where
  message : String
  executed : Option Bool
  data : List (String × JsonValue)
deriving Repr

/-- The constructor of `BitcoinJsonRpcError`
(src/BitcoinJsonRpcError.ts lines 9-23). -/
def mkBitcoinJsonRpcError (inner : RpcError) (executed : Option Bool)
    (data : List (String × JsonValue)) : BitcoinJsonRpcError :=
  { message := inner.message
  , executed := executed
  , data :=
      objAssign
        (objAssign inner.data
          [("bitcoinJsonRpc", .obj [("executed", executedToJson executed)])])
        data }

/-! ## Retry loop (src/BitcoinJsonRpc.ts) -/

/-- `MAX_ATTEMPTS` from src/BitcoinJsonRpc.ts line 10. -/
def MAX_ATTEMPTS : Nat := 5

/-- `DELAY_BETWEEN_ATTEMPTS` from src/BitcoinJsonRpc.ts line 11 (ms). -/
def DELAY_BETWEEN_ATTEMPTS : Nat := 5000

/-- `getErrrorData` (sic) from src/BitcoinJsonRpc.ts lines 30-38: the
diagnostic bundle attached to a terminal error. -/
def getErrrorData (method : String) (params : List JsonValue)
    (methodIsPure : Bool) (maxAttempts attemptN : Nat) :
    List (String × JsonValue) :=
  [("bitcoinJsonRpc", .obj
    [ ("method", .str method)
    , ("params", .arr params)
    , ("methodIsPure", .bool methodIsPure)
    , ("maxAttempts", .num maxAttempts)
    , ("attempts", .num attemptN)
    ])]

/-- The per-failure classification of src/BitcoinJsonRpc.ts lines 45-47:
`executed = getWasExecutedFromError(method, error)`,
`hadEffects = !methodIsPure && executed !== false`,
`shouldRetry = !hadEffects && getShouldRetry(method, error)`. -/
def retryDecision (method : String) (message : String) :
    Option Bool × Bool × Bool :=
  let methodIsPure := PURE_METHODS.contains method
  let executed := getWasExecutedFromError method message
  let hadEffects := !methodIsPure && !(executed == some false)
  let shouldRetry := !hadEffects && getShouldRetry method message
  (executed, hadEffects, shouldRetry)

/-- Outcome of one transport attempt (`this.cmd`): the resolved JSON
result or a thrown error. The behaviour of the remote node across a
logical call is an oracle from the 1-based attempt number. -/
def AttemptOracle : Type := Nat → Except RpcError JsonValue

/-- A finished run of the retry loop: terminal outcome plus the sequence
of waits (`delay(DELAY_BETWEEN_ATTEMPTS)`) performed before retries. -/
structure RetryRun where
  result : Except BitcoinJsonRpcError JsonValue
  delays : List Nat
deriving Repr

/-- The recursive `attempt` closure of `cmdWithRetry`
(src/BitcoinJsonRpc.ts lines 29-81). `fuel` is the number of retries
still possible; `cmdWithRetry` starts it at `MAX_ATTEMPTS - 1` with
`attemptN = 1`, so `fuel = 0` coincides with `attemptN == maxAttempts`
and the extra `fuel = 0` base case is unreachable from `cmdWithRetry`. -/
def cmdWithRetryAttempt (method : String) (params : List JsonValue)
    (oracle : AttemptOracle) : Nat → Nat → RetryRun
  | fuel, attemptN =>
    match oracle attemptN with
    | .ok result => ⟨.ok result, []⟩
    | .error e =>
      let methodIsPure := PURE_METHODS.contains method
      let executed := (retryDecision method e.message).1
      let shouldRetry := (retryDecision method e.message).2.2
      let terminal := mkBitcoinJsonRpcError e executed
        (getErrrorData method params methodIsPure MAX_ATTEMPTS attemptN)
      if attemptN == MAX_ATTEMPTS then
        ⟨.error terminal, []⟩
      else if shouldRetry then
        match fuel with
        | 0 => ⟨.error terminal, []⟩
        | f + 1 =>
          let sub := cmdWithRetryAttempt method params oracle f (attemptN + 1)
          ⟨sub.result, DELAY_BETWEEN_ATTEMPTS :: sub.delays⟩
      else
        ⟨.error terminal, []⟩

/-- `cmdWithRetry` from src/BitcoinJsonRpc.ts lines 25-84: run the
`attempt` closure from attempt 1. -/
def cmdWithRetry (method : String) (params : List JsonValue)
    (oracle : AttemptOracle) : RetryRun :=
  cmdWithRetryAttempt method params oracle (MAX_ATTEMPTS - 1) 1

/-! ## Shape validation adapter (src/BitcoinJsonRpc.ts lines 86-100) -/

/-- A zod-style schema: parse the raw value into a typed value or fail
with a description of the mismatch. -/
def Schema : Type := JsonValue → Except String JsonValue

/-- A failed schema parse, after `Object.assign(error, \x7b executed: true \x7d)`. -/
structure ParseFailure where
  message : String
  executed : Bool
deriving Repr

/-- Outcome of `cmdWithRetryAndParse`. -/
inductive ParseRunResult where
  | ok (value : JsonValue)
  | parseFailed (f : ParseFailure)
  | rpcFailed (e : BitcoinJsonRpcError)
deriving Repr

/-- `cmdWithRetryAndParse` from src/BitcoinJsonRpc.ts lines 86-100: run
the retry loop; on success feed the raw value to the schema, and on a
parse failure mark the error `executed := true`. -/
def cmdWithRetryAndParse (schema : Schema) (method : String)
    (params : List JsonValue) (oracle : AttemptOracle) : ParseRunResult :=
  match (cmdWithRetry method params oracle).result with
  | .error e => .rpcFailed e
  | .ok raw =>
    match schema raw with
    | .ok parsed => .ok parsed
    | .error msg => .parseFailed ⟨msg, true⟩

/-! ## sendToAddress parameter construction
(src/BitcoinJsonRpc.ts lines 107-125) -/

/-- The positional parameter list built by `sendToAddress`. Optional JS
arguments are `Option`s; the final `else if (commentTo)` branch of the
source tests the JS truthiness of `commentTo`, which is necessarily
`undefined` (falsy) there, so nothing is pushed in that branch. -/
def sendToAddressParams (address amount : String)
    (comment commentTo : Option String)
    (subtractFeeFromAmount replaceable : Option Bool) : List JsonValue :=
  match replaceable with
  | some r =>
    -- Argument #6
    [ .str address, .str amount
    , .str (comment.getD ""), .str (commentTo.getD "")
    , .bool (subtractFeeFromAmount.getD false), .bool r ]
  | none =>
    match subtractFeeFromAmount with
    | some sub =>
      -- Argument #5
      [ .str address, .str amount
      , .str (comment.getD ""), .str (commentTo.getD ""), .bool sub ]
    | none =>
      match commentTo with
      | some ct =>
        -- Argument #4
        [ .str address, .str amount, .str (comment.getD ""), .str ct ]
      | none =>
        -- `else if (commentTo)`: commentTo is undefined here, so falsy
        [ .str address, .str amount ]

/-- `sendToAddress`: dispatches the built parameter list to
`cmdWithRetryAndParse` with method name `"sendtoaddress"`. -/
def sendToAddress (schema : Schema) (oracle : AttemptOracle)
    (address amount : String) (comment commentTo : Option String)
    (subtractFeeFromAmount replaceable : Option Bool) : ParseRunResult :=
  cmdWithRetryAndParse schema "sendtoaddress"
    (sendToAddressParams address amount comment commentTo
      subtractFeeFromAmount replaceable) oracle

/-! ## Response classifier (src/utils.ts lines 41-69, src/json-rpc.ts) -/

mutual

/-- Model of `JSON.stringify` on our JSON values (string escaping beyond
the surrounding quotes is not modelled; the source only interpolates the
result into error messages). -/
def jsonStringify : JsonValue → String
  | .null => "null"
  | .bool true => "true"
  | .bool false => "false"
  | .num n => toString n
  | .str s => "\"" ++ s ++ "\""
  | .arr items => "[" ++ jsonStringifyList items ++ "]"
  | .obj fields => "\x7b" ++ jsonStringifyFields fields ++ "\x7d"

/-- Comma-separated stringification of array elements. -/
def jsonStringifyList : List JsonValue → String
  | [] => ""
  | [v] => jsonStringify v
  | v :: rest => jsonStringify v ++ "," ++ jsonStringifyList rest

/-- Comma-separated stringification of object fields. -/
def jsonStringifyFields : List (String × JsonValue) → String
  | [] => ""
  | [(k, v)] => "\"" ++ k ++ "\":" ++ jsonStringify v
  | (k, v) :: rest =>
    "\"" ++ k ++ "\":" ++ jsonStringify v ++ "," ++ jsonStringifyFields rest

end

/-- `throwIfErrorInResponseData` from src/utils.ts lines 41-69, as a
function returning `some thrownError` where the source throws and `none`
where it returns. `data = none` models an `undefined` body. For a truthy
non-string `data.error.message` the source's `maybeShortenErrorMessage`
would itself throw a `TypeError` (`value.substr` is not a function);
that throw is modelled by its JS error message. -/
def throwIfErrorInResponseData (data : Option JsonValue) : Option RpcError :=
  match data with
  | none => some ⟨"data is undefined", []⟩
  | some d =>
    match d with
    | .str s => some ⟨maybeShortenErrorMessage s, [("jsonRpcResponse", .str s)]⟩
    | _ =>
      match lookupJs d "error" with
      | none => none
      | some .null => none
      | some err =>
        match lookupJs err "message" with
        | some (.str s) =>
          if s != "" then
            some ⟨maybeShortenErrorMessage s, [("jsonRpcResponse", d)]⟩
          else
            some ⟨maybeShortenErrorMessage (jsonStringify d), [("jsonRpcResponse", d)]⟩
        | some m =>
          if jsTruthy m then
            some ⟨"value.substr is not a function", []⟩
          else
            some ⟨maybeShortenErrorMessage (jsonStringify d), [("jsonRpcResponse", d)]⟩
        | none =>
          some ⟨maybeShortenErrorMessage (jsonStringify d), [("jsonRpcResponse", d)]⟩

/-- The `jsonRpcRequest` diagnostic bundle attached by `jsonRpcCmd`. -/
def jsonRpcRequestData (url method : String) (params : List JsonValue) :
    List (String × JsonValue) :=
  [("jsonRpcRequest", .obj
    [("url", .str url), ("method", .str method), ("params", .arr params)])]

/-- The response-classification tail of `jsonRpcCmd`
(src/json-rpc.ts lines 52-84), applied to the parsed body `dataStrict`:
run `throwIfErrorInResponseDataWithExtraProps`, then destructure `result`
and fail with "Result missing from ..." when it is `undefined`. The
lodash `merge` of the extra props composes the request bundle into the
thrown error's data. -/
def jsonRpcResultOf (url method : String) (params : List JsonValue)
    (dataStrict : JsonValue) : Except RpcError JsonValue :=
  match throwIfErrorInResponseData (some dataStrict) with
  | some e =>
    .error ⟨e.message, objAssign e.data (jsonRpcRequestData url method params)⟩
  | none =>
    match lookupJs dataStrict "result" with
    | some result => .ok result
    | none =>
      let dataAsText :=
        match dataStrict with
        | .str s => s
        | _ => jsonStringify dataStrict
      .error ⟨maybeShortenErrorMessage ("Result missing from " ++ dataAsText),
        jsonRpcRequestData url method params⟩

/-! ## Concrete scenarios used as witnesses and counterexamples -/

/-- A node whose every attempt fails with the same error. -/
def constFailOracle (e : RpcError) : AttemptOracle := fun _ => .error e

/-- A node that returns the same successful payload on every attempt. -/
def constOkOracle (v : JsonValue) : AttemptOracle := fun _ => .ok v

/-- The shape-mismatch scenario of the spec: the node answers the balance
query with an object where a bare number is expected. -/
def balanceObjectPayload : JsonValue := .obj [("balance", .num 1)]

/-- A schema expecting a bare number, as for the balance query: anything
else is a shape mismatch. -/
def numberSchema : Schema := fun v =>
  match v with
  | .num n => .ok (.num n)
  | _ => .error "Expected number, received object"

/-- A failure message whose `"fees may not be sufficient"` fragment lies
entirely beyond the 150-character truncation cap. -/
def c6RawMessage : String :=
  ⟨List.replicate MAX_ERROR_MESSAGE_LENGTH 'x'⟩ ++ "fees may not be sufficient"

/-- A concrete inner transport error carrying protocol diagnostic data,
as produced by the response classifier. -/
def c5Inner : RpcError := ⟨"boom", [("jsonRpcResponse", .str "x")]⟩

/-- The terminal error assembled from `c5Inner` with a definite
NotExecuted verdict after one attempt on a non-pure method. -/
def c5Error : BitcoinJsonRpcError :=
  mkBitcoinJsonRpcError c5Inner (some false)
    (getErrrorData "sendtoaddress" [] false MAX_ATTEMPTS 1)

/-! ## Helper lemmas -/

/-- A key that is not carried by a field list looks up to `undefined`. -/
theorem lookupField_eq_none (fields : List (String × JsonValue)) (key : String)
    (h : objHasKey fields key = false) : lookupField fields key = none := by
  induction fields with
  | nil => rfl
  | cons p rest ih =>
    simp only [objHasKey, List.any_cons, Bool.or_eq_false_iff] at h
    simpa [lookupField, h.1] using ih h.2

/-- Lookup through a shallow merge: keys of the override win, all other
keys fall back to the base. -/
theorem lookupField_objAssign (base extra : List (String × JsonValue)) (key : String) :
    lookupField (objAssign base extra) key =
      if objHasKey extra key then lookupField extra key else lookupField base key := by
  induction base with
  | nil =>
    simp only [objAssign, List.filter_nil, List.nil_append]
    cases h : objHasKey extra key with
    | false => simp [lookupField_eq_none extra key h, lookupField]
    | true => simp
  | cons p rest ih =>
    obtain ⟨k, v⟩ := p
    by_cases hk : (k == key) = true
    · have hkey : k = key := by simpa using hk
      subst hkey
      cases h : objHasKey extra k with
      | true =>
        simp only [objAssign, List.filter_cons, h, Bool.not_true, if_neg, reduceIte]
        simpa [objAssign, h] using ih
      | false =>
        simp only [objAssign, List.filter_cons, h, Bool.not_false, if_pos, reduceIte]
        simp [lookupField, h]
    · have hne : (k == key) = false := by simpa using hk
      cases hfilter : !objHasKey extra k with
      | true =>
        simp only [objAssign, List.filter_cons, hfilter, reduceIte, List.cons_append]
        simpa [objAssign, lookupField, hne] using ih
      | false =>
        simp only [objAssign, List.filter_cons, hfilter, reduceIte]
        simpa [objAssign, lookupField, hne] using ih

/-- Every wait performed by the retry loop is the fixed
`DELAY_BETWEEN_ATTEMPTS`, and at most `fuel` waits occur. -/
theorem cmdWithRetryAttempt_delays (method : String) (params : List JsonValue)
    (oracle : AttemptOracle) :
    ∀ fuel attemptN,
      (cmdWithRetryAttempt method params oracle fuel attemptN).delays.length ≤ fuel ∧
      ∀ d ∈ (cmdWithRetryAttempt method params oracle fuel attemptN).delays,
        d = DELAY_BETWEEN_ATTEMPTS := by
  intro fuel
  induction fuel with
  | zero =>
    intro attemptN
    unfold cmdWithRetryAttempt
    cases horacle : oracle attemptN with
    | ok v => simp [horacle]
    | error e =>
      simp only [horacle]
      split_ifs <;> simp
  | succ f ih =>
    intro attemptN
    unfold cmdWithRetryAttempt
    cases horacle : oracle attemptN with
    | ok v => simp [horacle]
    | error e =>
      simp only [horacle]
      split_ifs with h1 h2
      · simp
      · have hsub := ih (attemptN + 1)
        refine ⟨by simpa using hsub.1, ?_⟩
        intro d hd
        simp only [List.mem_cons] at hd
        rcases hd with rfl | hd
        · rfl
        · exact hsub.2 d hd
      · simp

/-! ## Claims -/

/-- C3. The effect classifier never returns Executed: for every method
name and failure message, `getWasExecutedFromError` returns either
NotExecuted (`some false`), exactly when the message matches one of the
listed patterns, or Unknown (`none`) when no pattern matches; the value
`some true` is never returned. -/
theorem claim_C3 (method message : String) :
    (getWasExecutedFromError method message = some false ∨
      getWasExecutedFromError method message = none) ∧
    (getWasExecutedFromError method message = some false ↔
      notExecutedErrorMessages.any (fun p => matchesMsg p message) = true) ∧
    (getWasExecutedFromError method message = none ↔
      notExecutedErrorMessages.any (fun p => matchesMsg p message) = false) := by
  unfold getWasExecutedFromError
  cases h : notExecutedErrorMessages.any (fun p => matchesMsg p message) <;> simp [h]

/-- Witness for C3 at a concrete method and message. -/
theorem claim_C3_witness :
    getWasExecutedFromError "sendtoaddress" "Insufficient funds" = some false ∨
      getWasExecutedFromError "sendtoaddress" "Insufficient funds" = none :=
  (claim_C3 "sendtoaddress" "Insufficient funds").1

/-- C10. The executed verdict is independent of the method name: the two
arguments of `getWasExecutedFromError` that differ only in the method
yield the same verdict, since only the message is inspected. -/
theorem claim_C10 (m1 m2 s : String) :
    getWasExecutedFromError m1 s = getWasExecutedFromError m2 s := rfl

/-- C7. When a successful payload fails per-method shape validation,
`cmdWithRetryAndParse` surfaces the parse error marked `executed = true`,
regardless of the method, the schema, the payload or the oracle. -/
theorem claim_C7 (schema : Schema) (method : String) (params : List JsonValue)
    (oracle : AttemptOracle) (raw : JsonValue) (msg : String)
    (hok : (cmdWithRetry method params oracle).result = .ok raw)
    (hparse : schema raw = .error msg) :
    cmdWithRetryAndParse schema method params oracle = .parseFailed ⟨msg, true⟩ := by
  unfold cmdWithRetryAndParse
  rw [hok]
  dsimp only
  rw [hparse]

/-- Witness for C7: the spec's shape-mismatch scenario, a balance query
answered with an object where a bare number is expected. -/
theorem claim_C7_witness :
    cmdWithRetryAndParse numberSchema "getbalance" [] (constOkOracle balanceObjectPayload) =
      .parseFailed ⟨"Expected number, received object", true⟩ :=
  claim_C7 numberSchema "getbalance" [] (constOkOracle balanceObjectPayload)
    balanceObjectPayload "Expected number, received object" rfl rfl

/-- C8. Calling `sendToAddress` with only the required arguments sends
just the two required positional parameters, and specifying
replaceability fills the intermediate optional arguments with the
documented defaults (empty comment strings, `false` fee-subtraction, the
explicit replaceable boolean), positionally in the documented order
`(address, amount, comment, comment_to, subtractfeefromamount,
replaceable)` under the method name `"sendtoaddress"`. -/
theorem claim_C8 (address amount : String) (r : Bool) (schema : Schema)
    (oracle : AttemptOracle) :
    sendToAddressParams address amount none none none (some r) =
      [ .str address, .str amount, .str "", .str "", .bool false, .bool r ] ∧
    sendToAddressParams address amount none none none none =
      [ .str address, .str amount ] ∧
    sendToAddress schema oracle address amount none none none (some r) =
      cmdWithRetryAndParse schema "sendtoaddress"
        [ .str address, .str amount, .str "", .str "", .bool false, .bool r ]
        oracle :=
  ⟨rfl, rfl, rfl⟩

/-- C1. For every method outside the purity registry and every failure
message matching none of the NotExecuted patterns, the loop computes
`executed = Unknown`, `hadEffects = true`, `shouldRetry = false`, and
terminates immediately after the first attempt with a
`BitcoinJsonRpcError` and no retry delay. -/
theorem claim_C1 (method message : String) (params : List JsonValue)
    (oracle : AttemptOracle) (e : RpcError)
    (hpure : PURE_METHODS.contains method = false)
    (hexec : getWasExecutedFromError method message = none)
    (hmsg : e.message = message)
    (horacle : oracle 1 = .error e) :
    retryDecision method message = (none, true, false) ∧
    cmdWithRetry method params oracle =
      ⟨.error (mkBitcoinJsonRpcError e none
        (getErrrorData method params false MAX_ATTEMPTS 1)), []⟩ := by
  have hmem : method ∉ PURE_METHODS := by simpa using hpure
  have hdec : retryDecision method message = (none, true, false) := by
    unfold retryDecision
    simp [hpure, hexec, hmem]
  refine ⟨hdec, ?_⟩
  unfold cmdWithRetry cmdWithRetryAttempt
  rw [horacle]
  dsimp only
  simp [hmsg, hdec, hpure, hmem, MAX_ATTEMPTS]

/-- Witness for C1: a non-pure method with an unrecognized message fails
terminally on the first attempt. -/
theorem claim_C1_witness :
    retryDecision "foo" "bar" = (none, true, false) ∧
    cmdWithRetry "foo" [] (constFailOracle ⟨"bar", []⟩) =
      ⟨.error (mkBitcoinJsonRpcError ⟨"bar", []⟩ none
        (getErrrorData "foo" [] false MAX_ATTEMPTS 1)), []⟩ :=
  claim_C1 "foo" "bar" [] (constFailOracle ⟨"bar", []⟩) ⟨"bar", []⟩
    (by decide) (by decide) rfl rfl

/-- C2. The method `"sendtoaddress"` failing on the first attempt with
message exactly `"Insufficient funds"` is never retried: the run ends at
attempt 1 with no delay, the terminal error's executed verdict is
NotExecuted (`some false`), and its diagnostic bundle records
`attempts = 1`. -/
theorem claim_C2 (params : List JsonValue) (oracle : AttemptOracle) (e : RpcError)
    (hmsg : e.message = "Insufficient funds")
    (horacle : oracle 1 = .error e) :
    cmdWithRetry "sendtoaddress" params oracle =
      ⟨.error (mkBitcoinJsonRpcError e (some false)
        (getErrrorData "sendtoaddress" params false MAX_ATTEMPTS 1)), []⟩ ∧
    (mkBitcoinJsonRpcError e (some false)
        (getErrrorData "sendtoaddress" params false MAX_ATTEMPTS 1)).executed = some false ∧
    lookupField (mkBitcoinJsonRpcError e (some false)
        (getErrrorData "sendtoaddress" params false MAX_ATTEMPTS 1)).data "bitcoinJsonRpc" =
      some (.obj
        [ ("method", .str "sendtoaddress"), ("params", .arr params)
        , ("methodIsPure", .bool false), ("maxAttempts", .num (MAX_ATTEMPTS : Nat))
        , ("attempts", .num 1)]) := by
  refine ⟨?_, rfl, ?_⟩
  · unfold cmdWithRetry cmdWithRetryAttempt
    rw [horacle]
    dsimp only
    simp [hmsg, MAX_ATTEMPTS,
      show retryDecision "sendtoaddress" "Insufficient funds" = (some false, false, false) from rfl,
      show decide ("sendtoaddress" ∈ PURE_METHODS) = false from by decide]
  · unfold mkBitcoinJsonRpcError
    rw [lookupField_objAssign]
    simp [getErrrorData, objHasKey, lookupField]

/-- Witness for C2: the unit-test scenario of the repository, a
`sendtoaddress` call that fails with exactly "Insufficient funds". -/
theorem claim_C2_witness :
    cmdWithRetry "sendtoaddress" [.str "1Bitcoin", .str "1.2"]
        (constFailOracle ⟨"Insufficient funds", []⟩) =
      ⟨.error (mkBitcoinJsonRpcError ⟨"Insufficient funds", []⟩ (some false)
        (getErrrorData "sendtoaddress" [.str "1Bitcoin", .str "1.2"] false
          MAX_ATTEMPTS 1)), []⟩ :=
  (claim_C2 [.str "1Bitcoin", .str "1.2"]
    (constFailOracle ⟨"Insufficient funds", []⟩) ⟨"Insufficient funds", []⟩ rfl rfl).1

/-- C4. The retry loop performs at most `MAX_ATTEMPTS = 5` attempts, each
retry waits the fixed `DELAY_BETWEEN_ATTEMPTS = 5000` ms with no growth,
and a failure at attempt `MAX_ATTEMPTS` is terminal regardless of the
value of `shouldRetry` (for any remaining fuel). -/
theorem claim_C4 :
    MAX_ATTEMPTS = 5 ∧ DELAY_BETWEEN_ATTEMPTS = 5000 ∧
    (∀ (method : String) (params : List JsonValue) (oracle : AttemptOracle),
      (cmdWithRetry method params oracle).delays.length + 1 ≤ MAX_ATTEMPTS ∧
      ∀ d ∈ (cmdWithRetry method params oracle).delays, d = DELAY_BETWEEN_ATTEMPTS) ∧
    (∀ (method : String) (params : List JsonValue) (oracle : AttemptOracle)
        (fuel : Nat) (e : RpcError), oracle MAX_ATTEMPTS = .error e →
      cmdWithRetryAttempt method params oracle fuel MAX_ATTEMPTS =
        ⟨.error (mkBitcoinJsonRpcError e (getWasExecutedFromError method e.message)
          (getErrrorData method params (PURE_METHODS.contains method)
            MAX_ATTEMPTS MAX_ATTEMPTS)), []⟩) := by
  refine ⟨rfl, rfl, ?_, ?_⟩
  · intro method params oracle
    have h := cmdWithRetryAttempt_delays method params oracle (MAX_ATTEMPTS - 1) 1
    refine ⟨?_, h.2⟩
    have h1 := h.1
    show (cmdWithRetryAttempt method params oracle (MAX_ATTEMPTS - 1) 1).delays.length + 1 ≤ MAX_ATTEMPTS
    simp only [MAX_ATTEMPTS] at h1 ⊢
    omega
  · intro method params oracle fuel e horacle
    unfold cmdWithRetryAttempt
    rw [horacle]
    dsimp only
    simp [retryDecision]

/-- Witness for C4: a pure method with a retryable message still fails
terminally at attempt 5, even with retry fuel left. -/
theorem claim_C4_witness :
    MAX_ATTEMPTS = 5 ∧
    cmdWithRetryAttempt "getbalance" [] (constFailOracle ⟨"bar", []⟩) 3 MAX_ATTEMPTS =
      ⟨.error (mkBitcoinJsonRpcError ⟨"bar", []⟩ (getWasExecutedFromError "getbalance" "bar")
        (getErrrorData "getbalance" [] (PURE_METHODS.contains "getbalance")
          MAX_ATTEMPTS MAX_ATTEMPTS)), []⟩ :=
  ⟨claim_C4.1, claim_C4.2.2.2 "getbalance" [] (constFailOracle ⟨"bar", []⟩) 3 ⟨"bar", []⟩ rfl⟩

/-- A literal head of a message survives truncation whenever it fits
inside the cap. -/
theorem isPrefixOf_maybeShorten (a b : String)
    (h : a.data.length ≤ MAX_ERROR_MESSAGE_LENGTH) :
    a.data.isPrefixOf (maybeShortenErrorMessage (a ++ b)).data = true := by
  rw [List.isPrefixOf_iff_prefix]
  show a.data <+: ((a ++ b).data.take MAX_ERROR_MESSAGE_LENGTH)
  rw [String.data_append, List.take_append_eq_append_take, List.take_of_length_le h]
  exact List.prefix_append _ _

/-- C5 counterexample. The claim that every layer of the terminal error's
data bundle adds fields without discarding the previous layer's is false:
at a concrete terminal error, the final bundle's `bitcoinJsonRpc` value is
exactly the outer `{method, params, methodIsPure, maxAttempts, attempts}`
object, and the `executed` field that the middle layer had attached under
`bitcoinJsonRpc` has been discarded (the shallow `Object.assign`
overwrites the colliding key wholesale). -/
theorem claim_C5_counterexample :
    lookupField c5Error.data "bitcoinJsonRpc" =
      some (.obj
        [ ("method", .str "sendtoaddress"), ("params", .arr [])
        , ("methodIsPure", .bool false), ("maxAttempts", .num 5)
        , ("attempts", .num 1)]) ∧
    (match lookupField c5Error.data "bitcoinJsonRpc" with
      | some (.obj fields) => lookupField fields "executed"
      | _ => none) = none := by
  constructor <;> rfl

/-- C5 as amended. The terminal error's data bundle preserves every
top-level field of the inner error's data whose key differs from
`bitcoinJsonRpc`, but the `bitcoinJsonRpc` key itself carries only the
outer `{method, params, methodIsPure, maxAttempts, attempts}` object —
the `executed` verdict placed there by the middle layer is overwritten
and survives only as the error's own `executed` property. -/
theorem claim_C5 (inner : RpcError) (executed : Option Bool) (method : String)
    (params : List JsonValue) (methodIsPure : Bool) (maxAttempts attemptN : Nat)
    (key : String) (hkey : key ≠ "bitcoinJsonRpc") :
    (mkBitcoinJsonRpcError inner executed
      (getErrrorData method params methodIsPure maxAttempts attemptN)).executed = executed ∧
    lookupField (mkBitcoinJsonRpcError inner executed
      (getErrrorData method params methodIsPure maxAttempts attemptN)).data key =
      lookupField inner.data key ∧
    lookupField (mkBitcoinJsonRpcError inner executed
      (getErrrorData method params methodIsPure maxAttempts attemptN)).data "bitcoinJsonRpc" =
      some (.obj
        [ ("method", .str method), ("params", .arr params)
        , ("methodIsPure", .bool methodIsPure), ("maxAttempts", .num (maxAttempts : Nat))
        , ("attempts", .num (attemptN : Nat))]) := by
  have hne : ("bitcoinJsonRpc" == key) = false := by
    simp [Ne.symm hkey]
  refine ⟨rfl, ?_, ?_⟩
  · unfold mkBitcoinJsonRpcError
    rw [lookupField_objAssign, lookupField_objAssign]
    have h1 : objHasKey (getErrrorData method params methodIsPure maxAttempts attemptN) key = false := by
      simp [getErrrorData, objHasKey, hne]
    have h2 : objHasKey
        [("bitcoinJsonRpc", JsonValue.obj [("executed", executedToJson executed)])] key = false := by
      simp [objHasKey, hne]
    simp [h1, h2, lookupField]
  · unfold mkBitcoinJsonRpcError
    rw [lookupField_objAssign]
    simp [getErrrorData, objHasKey, lookupField]

/-- Witness for C5 (amended) at the concrete terminal error of the
counterexample, with the preserved inner key `jsonRpcResponse`. -/
theorem claim_C5_witness :
    (mkBitcoinJsonRpcError c5Inner (some false)
      (getErrrorData "sendtoaddress" [] false MAX_ATTEMPTS 1)).executed = some false ∧
    lookupField (mkBitcoinJsonRpcError c5Inner (some false)
      (getErrrorData "sendtoaddress" [] false MAX_ATTEMPTS 1)).data "jsonRpcResponse" =
      lookupField c5Inner.data "jsonRpcResponse" ∧
    lookupField (mkBitcoinJsonRpcError c5Inner (some false)
      (getErrrorData "sendtoaddress" [] false MAX_ATTEMPTS 1)).data "bitcoinJsonRpc" =
      some (.obj
        [ ("method", .str "sendtoaddress"), ("params", .arr [])
        , ("methodIsPure", .bool false), ("maxAttempts", .num (MAX_ATTEMPTS : Nat))
        , ("attempts", .num (1 : Nat))]) :=
  claim_C5 c5Inner (some false) "sendtoaddress" [] false MAX_ATTEMPTS 1
    "jsonRpcResponse" (by decide)

set_option maxRecDepth 10000 in
/-- C6 counterexample. Classification of the raw failure message and of
the message the classifier actually receives (truncated to 150 chars when
the transport error is constructed) can differ: a message whose
recognized fragment lies past the cap classifies as NotExecuted raw but
as Unknown after truncation. -/
theorem claim_C6_counterexample :
    getWasExecutedFromError "sendtoaddress" c6RawMessage = some false ∧
    getWasExecutedFromError "sendtoaddress" (maybeShortenErrorMessage c6RawMessage) = none := by
  constructor
  · decide
  · decide

/-- C6 as amended. The classifier receives the message already truncated
by `maybeShortenErrorMessage`; truncation is the identity on messages of
at most 150 characters, so for those the verdicts on the raw and the
received message coincide. -/
theorem claim_C6 (method message : String)
    (h : message.data.length ≤ MAX_ERROR_MESSAGE_LENGTH) :
    maybeShortenErrorMessage message = message ∧
    getWasExecutedFromError method (maybeShortenErrorMessage message) =
      getWasExecutedFromError method message := by
  have hid : maybeShortenErrorMessage message = message := by
    unfold maybeShortenErrorMessage
    cases message with
    | mk data => exact congrArg String.mk (List.take_of_length_le h)
  exact ⟨hid, by rw [hid]⟩

/-- Witness for C6 (amended) at a short concrete message. -/
theorem claim_C6_witness :
    maybeShortenErrorMessage "Insufficient funds" = "Insufficient funds" ∧
    getWasExecutedFromError "sendtoaddress" (maybeShortenErrorMessage "Insufficient funds") =
      getWasExecutedFromError "sendtoaddress" "Insufficient funds" :=
  claim_C6 "sendtoaddress" "Insufficient funds" (by decide)

/-- C9. A parsed body object whose `error` field is absent or null is
treated as success, and when it carries a `result` field the call
resolves to it; if it has no `result` field at all the call fails with
the truncation of "Result missing from " followed by the stringified
payload, a message that begins with "Result missing from ". -/
theorem claim_C9 (url method : String) (params : List JsonValue)
    (fields : List (String × JsonValue))
    (herr : lookupField fields "error" = none ∨ lookupField fields "error" = some .null) :
    (∀ r, lookupField fields "result" = some r →
      jsonRpcResultOf url method params (.obj fields) = .ok r) ∧
    (lookupField fields "result" = none →
      jsonRpcResultOf url method params (.obj fields) =
        .error ⟨maybeShortenErrorMessage
            ("Result missing from " ++ jsonStringify (.obj fields)),
          jsonRpcRequestData url method params⟩ ∧
      "Result missing from ".data.isPrefixOf
        (maybeShortenErrorMessage
          ("Result missing from " ++ jsonStringify (.obj fields))).data = true) := by
  have hthrow : throwIfErrorInResponseData (some (.obj fields)) = none := by
    unfold throwIfErrorInResponseData
    rcases herr with h | h <;> simp [lookupJs, h]
  constructor
  · intro r hr
    unfold jsonRpcResultOf
    rw [hthrow]
    dsimp only
    simp [lookupJs, hr]
  · intro hr
    refine ⟨?_, ?_⟩
    · unfold jsonRpcResultOf
      rw [hthrow]
      dsimp only
      simp [lookupJs, hr]
    · exact isPrefixOf_maybeShorten "Result missing from " _ (by decide)

/-- Witness for C9: an envelope with neither `error` nor `result`. -/
theorem claim_C9_witness :
    jsonRpcResultOf "http://localhost" "getbalance" [] (.obj [("id", .num 1)]) =
      .error ⟨maybeShortenErrorMessage
          ("Result missing from " ++ jsonStringify (.obj [("id", .num 1)])),
        jsonRpcRequestData "http://localhost" "getbalance" []⟩ ∧
    "Result missing from ".data.isPrefixOf
      (maybeShortenErrorMessage
        ("Result missing from " ++ jsonStringify (.obj [("id", .num 1)]))).data = true :=
  (claim_C9 "http://localhost" "getbalance" [] [("id", .num 1)] (Or.inl rfl)).2 rfl

end BitcoinJsonRpcModel
